import Mathlib

/-!
Verification development for the GitHub pull-request monitor service.

The definitions below are a shallow embedding of the two core server
routes: the notification aggregation/caching engine
(src/app/api/notifications/route.ts, current revision) and the
device-flow authentication session manager (src/app/api/health/route.ts,
current revision).  External subprocess invocations (the `gh` tool) are
abstracted as explicit outcome parameters; everything else follows the
TypeScript line by line.  JavaScript `Map` objects are modelled as
association lists with JavaScript insertion-order semantics, wall-clock
times as natural-number milliseconds.  The server runs single-threaded
with cooperative scheduling, so a request handler is modelled as the
synchronous segment up to its first suspension point (`getPhase1`)
followed by the owner's completion segment (`ownerFinish`); shared
module-level state is threaded explicitly through `AggState`.
-/

namespace Notif

/-- One pull-request observation, mirroring the `PRNotification` interface
of the notifications route (optional fields become `Option`). -/
structure PRNotification where
  title : String
  reason : String
  url : String
  state : Option String := none
  html_url : Option String := none
  repository : Option String := none
  number : Option Nat := none
  headRef : Option String := none
  closedAt : Option String := none
  merged : Option Bool := none
  reviewDecision : Option String := none
deriving DecidableEq

/-- Lookup in a JavaScript `Map` modelled as an association list: the first
entry with the key (keys are unique in maps built by `mapSet`). -/
def mapGet (m : List (String × PRNotification)) (k : String) :
    Option PRNotification :=
  match m with
  | [] => none
  | p :: rest => if p.1 = k then some p.2 else mapGet rest k

/-- JavaScript `Map.prototype.set`: replace in place when the key exists
(keeping insertion order), otherwise append at the end. -/
def mapSet (m : List (String × PRNotification)) (k : String)
    (v : PRNotification) : List (String × PRNotification) :=
  if m.any (fun p => p.1 = k) then
    m.map (fun p => if p.1 = k then (k, v) else p)
  else m ++ [(k, v)]

/-- The merge loop of the aggregation cycle (route lines 581-594 of the
current revision): seed the map with the notification-derived records,
then run `allPRs.set(pr.url, pr)` over the four search-derived category
lists in their fixed order.  Note the search pass has no
`!allPRs.has(...)` guard: `set` overwrites existing keys. -/
def mergePRs (notificationPRs authoredPRs reviewRequestedPRs
    reviewedPRs commentedPRs : List PRNotification) :
    List (String × PRNotification) :=
  let seeded := notificationPRs.foldl (fun m pr => mapSet m pr.url pr) []
  (authoredPRs ++ reviewRequestedPRs ++ reviewedPRs ++ commentedPRs).foldl
    (fun m pr => mapSet m pr.url pr) seeded

/-- The served list: `Array.from(allPRs.values())`. -/
def mergedNotifications (notificationPRs authoredPRs reviewRequestedPRs
    reviewedPRs commentedPRs : List PRNotification) : List PRNotification :=
  (mergePRs notificationPRs authoredPRs reviewRequestedPRs reviewedPRs
    commentedPRs).map Prod.snd

/-- The last record carrying a given canonical URL in a list, if any. -/
def lastWithUrl (l : List PRNotification) (u : String) :
    Option PRNotification :=
  match l with
  | [] => none
  | pr :: rest =>
    match lastWithUrl rest u with
    | some r => some r
    | none => if pr.url = u then some pr else none

/-- A notification-derived record for one concrete pull request, as built
by `getNotificationPRs` (no `reviewDecision`, `reason` from the
notification thread). -/
def notifRecord : PRNotification :=
  { title := "Fix widget parser"
    reason := "review_requested"
    url := "https://api.github.com/repos/acme/widgets/pulls/7"
    state := some "open"
    html_url := some "https://github.com/acme/widgets/pull/7"
    repository := some "acme/widgets"
    number := some 7
    headRef := some "fix-parser"
    merged := some false }

/-- A search-derived record for the same pull request, as built by
`searchPRsGraphQL` for the `author` category (same canonical URL after
the github.com to api.github.com rewrite). -/
def searchRecord : PRNotification :=
  { title := "Fix widget parser"
    reason := "author"
    url := "https://api.github.com/repos/acme/widgets/pulls/7"
    state := some "open"
    html_url := some "https://github.com/acme/widgets/pull/7"
    repository := some "acme/widgets"
    number := some 7
    headRef := some "fix-parser"
    merged := some false
    reviewDecision := some "APPROVED" }

/-! Module-level constants of the notifications route. -/

/-- Cache freshness window: 1 minute. -/
def CACHE_TTL_MS : Nat := 60000

/-- Backoff duration after a rate-limit classified error: 5 minutes. -/
def ERROR_BACKOFF_MS : Nat := 300000

/-- Sliding window length for the gh-call throttle. -/
def RATE_LIMIT_WINDOW_MS : Nat := 60000

/-- Ceiling of gh calls admitted per sliding window. -/
def MAX_GH_CALLS_PER_WINDOW : Nat := 20

/-- Lower bound of each throttle sleep increment. -/
def MIN_SLEEP_MS : Nat := 100

/-- Upper bound of each throttle sleep increment. -/
def SLEEP_STEP_MS : Nat := 250

/-- The module-level mutable state of the notifications route that the
`GET` handler reads and writes: `cachedData`, `lastErrorTime`,
`isFetching` and the `pendingRequests` array (modelled by its length,
since every queued resolver is later called with one shared response).
The throttle timestamp log is handled separately below. -/
structure AggState where
  cachedNotifications : List PRNotification
  cachedTotal : Nat
  cachedTimestamp : Nat
  hasCache : Bool
  lastErrorTime : Nat
  isFetching : Bool
  pendingRequests : Nat
deriving DecidableEq

/-- Initial module state: `cachedData = null`, `lastErrorTime = 0`,
`isFetching = false`, no pending resolvers. -/
def initialAggState : AggState :=
  { cachedNotifications := []
    cachedTotal := 0
    cachedTimestamp := 0
    hasCache := false
    lastErrorTime := 0
    isFetching := false
    pendingRequests := 0 }

/-- JSON payloads the `GET` handler can respond with (the `ghMetrics`
field is reporting-only and omitted).  `cachedJson` carries
`cached: true` and status 200; `backoffJson` carries `backoff: true` and
status 429; `successJson` is the fresh 200 payload; `errorJson` carries
the classification flag (`backoff`/status 429 when the rate-limit
classifier fired, status 500 otherwise) and the detail string. -/
inductive GetResponse
  | cachedJson (notifications : List PRNotification) (total : Nat)
  | backoffJson (backoffRemainingSecs : Nat)
  | successJson (notifications : List PRNotification) (total : Nat)
  | errorJson (rateLimited : Bool) (details : String)
deriving DecidableEq

/-- Whether a response is tagged as served from cache (`cached: true`). -/
def fromCacheTag : GetResponse → Bool
  | .cachedJson _ _ => true
  | _ => false

/-- Whether a response is one of the two error payloads. -/
def isErrorResponse : GetResponse → Bool
  | .errorJson _ _ => true
  | _ => false

/-- Outcome of the synchronous segment of one `GET` call, from entry up to
the first suspension point: either an immediate response (cache hit or
active backoff), joining the pending queue as a coalesced waiter, or
becoming the fetch owner (the only continuation that goes on to issue
external gh calls). -/
inductive Phase1
  | respond (r : GetResponse)
  | waiter
  | owner
deriving DecidableEq

/-- Only the owner continuation issues external gh calls. -/
def issuesExternalCalls : Phase1 → Bool
  | .owner => true
  | _ => false

/-- Freshness test of the cache: `cachedData && Date.now() -
cachedData.timestamp < CACHE_TTL_MS`. -/
def cacheFresh (s : AggState) (now : Nat) : Bool :=
  s.hasCache && now - s.cachedTimestamp < CACHE_TTL_MS

/-- Active-backoff test: `lastErrorTime && Date.now() - lastErrorTime <
ERROR_BACKOFF_MS` (0 is falsy). -/
def backoffActive (s : AggState) (now : Nat) : Bool :=
  !(s.lastErrorTime = 0) && now - s.lastErrorTime < ERROR_BACKOFF_MS

/-- Remaining backoff in whole seconds, as put in the 429 payload:
`Math.floor((ERROR_BACKOFF_MS - (Date.now() - lastErrorTime)) / 1000)`. -/
def backoffRemainingSecs (s : AggState) (now : Nat) : Nat :=
  (ERROR_BACKOFF_MS - (now - s.lastErrorTime)) / 1000

/-- The synchronous segment of `GET` (route lines 514-555): serve a fresh
cache hit, else fail fast under active backoff, else join an in-flight
fetch as a waiter, else set `isFetching` and become the owner. -/
def getPhase1 (s : AggState) (now : Nat) : Phase1 × AggState :=
  if cacheFresh s now then
    (.respond (.cachedJson s.cachedNotifications s.cachedTotal), s)
  else if backoffActive s now then
    (.respond (.backoffJson (backoffRemainingSecs s now)), s)
  else if s.isFetching then
    (.waiter, { s with pendingRequests := s.pendingRequests + 1 })
  else
    (.owner, { s with isFetching := true })

/-- Result of the owner's aggregation work: the merged list on success, or
the thrown error's message on failure. -/
inductive FetchOutcome
  | success (notifications : List PRNotification)
  | failure (msg : String)
deriving DecidableEq

/-- Substring test on character lists (needle, haystack), used to model
JavaScript `String.prototype.includes`. -/
def charsStartWith : List Char → List Char → Bool
  | [], _ => true
  | _ :: _, [] => false
  | a :: as, b :: bs => a = b && charsStartWith as bs

/-- Does the haystack contain the needle as a contiguous run? -/
def charsContain (needle : List Char) : List Char → Bool
  | [] => charsStartWith needle []
  | c :: rest => charsStartWith needle (c :: rest) || charsContain needle rest

/-- JavaScript `haystack.includes(needle)`. -/
def strIncludes (haystack needle : String) : Bool :=
  charsContain needle.data haystack.data

/-- The error classifier of the catch block (route lines 635-638): an
error is rate-limit classified exactly when its message contains
"rate limit exceeded" or "HTTP 403". -/
def isRateLimitError (msg : String) : Bool :=
  strIncludes msg "rate limit exceeded" || strIncludes msg "HTTP 403"

/-- The owner's completion segment of `GET` (route lines 612-664): on
success replace the cache with the new list and timestamp and build the
200 payload; on failure classify the error, arm `lastErrorTime` only for
rate-limit classified errors, and build the error payload.  On both paths
every pending resolver is called with the one shared response and the
queue is cleared, and the `finally` block resets `isFetching`.  Returns
the new state, the owner's response, and the responses delivered to the
waiters. -/
def ownerFinish (s : AggState) (outcome : FetchOutcome) (now : Nat) :
    AggState × GetResponse × List GetResponse :=
  match outcome with
  | .success notifications =>
    let resp := GetResponse.successJson notifications notifications.length
    ({ s with
        cachedNotifications := notifications
        cachedTotal := notifications.length
        cachedTimestamp := now
        hasCache := true
        pendingRequests := 0
        isFetching := false },
      resp, List.replicate s.pendingRequests resp)
  | .failure msg =>
    let rl := isRateLimitError msg
    let resp := GetResponse.errorJson rl msg
    ({ s with
        lastErrorTime := if rl then now else s.lastErrorTime
        pendingRequests := 0
        isFetching := false },
      resp, List.replicate s.pendingRequests resp)

/-- Run the synchronous entry segments of a list of `GET` calls arriving
at the given times, in arrival order, threading the module state.
Returns the final state and each caller's `Phase1` outcome. -/
def processArrivals (s : AggState) : List Nat → AggState × List Phase1
  | [] => (s, [])
  | t :: rest =>
    let p := getPhase1 s t
    let q := processArrivals p.2 rest
    (q.1, p.1 :: q.2)

/-- Body of `getNotificationPRs` (route lines 357-409) with the gh
invocation and JSON decoding abstracted into the outcome parameter: the
whole body is wrapped in try/catch and any failure returns the empty
list. -/
def getNotificationPRs
    (outcome : Except String (List PRNotification)) : List PRNotification :=
  match outcome with
  | .ok prs => prs
  | .error _ => []

/-- Body of `searchPRsGraphQL` (route lines 411-504) with the gh
invocation and JSON decoding abstracted into the outcome parameter: the
whole body is wrapped in try/catch and any failure (including an
upstream rate-limit rejection) returns the empty list. -/
def searchPRsGraphQL
    (outcome : Except String (List PRNotification)) : List PRNotification :=
  match outcome with
  | .ok prs => prs
  | .error _ => []

/-- The owner's try block (route lines 557-596): `getUsername` has no
catch, so an identity-resolution failure propagates and fails the cycle;
the five category queries each absorb their own failures; the surviving
lists are merged with `mergePRs`. -/
def runFetchCycle (usernameOutcome : Except String String)
    (notifOutcome authoredOutcome reviewRequestedOutcome reviewedOutcome
      commentedOutcome : Except String (List PRNotification)) :
    FetchOutcome :=
  match usernameOutcome with
  | .error msg => .failure msg
  | .ok _ =>
    .success (mergedNotifications
      (getNotificationPRs notifOutcome)
      (searchPRsGraphQL authoredOutcome)
      (searchPRsGraphQL reviewRequestedOutcome)
      (searchPRsGraphQL reviewedOutcome)
      (searchPRsGraphQL commentedOutcome))

/-! The gh-call throttle (route lines 294-320). -/

/-- `pruneGhCallWindow(now)`: shift timestamps off the front of the log
while the oldest one has left the rolling window. -/
def pruneGhCallWindow (now : Nat) : List Nat → List Nat
  | [] => []
  | t :: rest =>
    if RATE_LIMIT_WINDOW_MS ≤ now - t then pruneGhCallWindow now rest
    else t :: rest

/-- One admission attempt at time `now`: prune, then admit (recording the
start timestamp) when the window holds fewer than the ceiling.  Returns
the new log and whether the call was admitted.  This is the body of each
`waitForGhSlot` loop iteration. -/
def tryAdmit (ts : List Nat) (now : Nat) : List Nat × Bool :=
  let ts' := pruneGhCallWindow now ts
  if ts'.length < MAX_GH_CALLS_PER_WINDOW then (ts' ++ [now], true)
  else (ts', false)

/-- The bounded sleep increment of a full window:
`Math.max(MIN_SLEEP_MS, Math.min(SLEEP_STEP_MS, untilReset))`. -/
def sleepForSlot (untilReset : Nat) : Nat :=
  max MIN_SLEEP_MS (min SLEEP_STEP_MS untilReset)

/-- `waitForGhSlot()` under a quiescent system (no concurrent admissions
while sleeping), with explicit fuel for the retry loop and the wall clock
advancing by each sleep: returns the new log, the cumulative waited
milliseconds, and the admission time, or `none` when fuel runs out
before a slot opens. -/
def waitForGhSlotAux :
    Nat → List Nat → Nat → Nat → Option (List Nat × Nat × Nat)
  | 0, ts, now, waited =>
    let ts' := pruneGhCallWindow now ts
    if ts'.length < MAX_GH_CALLS_PER_WINDOW then
      some (ts' ++ [now], waited, now)
    else none
  | Nat.succ f, ts, now, waited =>
    let ts' := pruneGhCallWindow now ts
    if ts'.length < MAX_GH_CALLS_PER_WINDOW then
      some (ts' ++ [now], waited, now)
    else
      let untilReset := RATE_LIMIT_WINDOW_MS - (now - ts'.headD 0)
      let sleepFor := sleepForSlot untilReset
      waitForGhSlotAux f ts' (now + sleepFor) (waited + sleepFor)

/-- `waitForGhSlot()` entry point: cumulative wait starts at 0. -/
def waitForGhSlot (fuel : Nat) (ts : List Nat) (now : Nat) :
    Option (List Nat × Nat × Nat) :=
  waitForGhSlotAux fuel ts now 0

/-- A trace of admission attempts at the given times: each attempt runs
`tryAdmit` on the current log; returns the admitted start timestamps in
order. -/
def runAdmissions (ts : List Nat) : List Nat → List Nat
  | [] => []
  | t :: rest =>
    let p := tryAdmit ts t
    if p.2 then t :: runAdmissions p.1 rest else runAdmissions p.1 rest

/-- The spacing guarantee of the throttle: among the admitted start
timestamps, any entry and the one `MAX_GH_CALLS_PER_WINDOW` admissions
later are at least one full window apart — so no
`MAX_GH_CALLS_PER_WINDOW + 1` admitted calls ever span less than the
window. -/
def spansWindow (adm : List Nat) : Prop :=
  ∀ i, i + MAX_GH_CALLS_PER_WINDOW < adm.length →
    adm.getD i 0 + RATE_LIMIT_WINDOW_MS ≤
      adm.getD (i + MAX_GH_CALLS_PER_WINDOW) 0

/-- A cycle in which the `author` category query is rejected by the
upstream rate limiter while identity resolution and the other category
queries succeed (the notification feed returning one record and the
other searches nothing). -/
def rateLimitedCycle : FetchOutcome :=
  runFetchCycle (.ok "alice") (.ok [notifRecord])
    (.error "HTTP 403: API rate limit exceeded") (.ok []) (.ok []) (.ok [])

/-- Module state after a `GET` at time 0 became the owner on the pristine
state, ran `rateLimitedCycle`, and completed at time 100: the final
state, the owner's response, and the waiter responses. -/
def rateLimitedRun : AggState × GetResponse × List GetResponse :=
  ownerFinish (getPhase1 initialAggState 0).2 rateLimitedCycle 100

end Notif

namespace Auth

/-- One authentication session, mirroring the `AuthProcess` interface of
the auth route: the subprocess handle is abstracted to a numeric id. -/
structure AuthProcess where
  process : Nat
  code : Option String := none
  url : Option String := none
  completed : Bool := false
  error : Option String := none
  startTime : Nat
deriving DecidableEq

/-- The `authProcesses` registry, a JavaScript `Map` keyed by session
identifier. -/
abbrev Registry := List (String × AuthProcess)

/-- `authProcesses.has(sessionId)`. -/
def registryHas (reg : Registry) (sid : String) : Bool :=
  reg.any (fun p => p.1 = sid)

/-- `authProcesses.get(sessionId)`: first (unique) matching entry. -/
def registryGet (reg : Registry) (sid : String) : Option AuthProcess :=
  match reg with
  | [] => none
  | p :: rest => if p.1 = sid then some p.2 else registryGet rest sid

/-- `authProcesses.delete(sessionId)`. -/
def registryDelete (reg : Registry) (sid : String) : Registry :=
  reg.filter (fun p => ¬p.1 = sid)

/-- Result of `startAuthSession`: a 400 when the identifier is missing, a
409 conflict when the identifier already has an active session, or the
SSE stream whose `start` callback spawns the subprocess. -/
inductive StartResult
  | missingSessionId
  | conflict
  | started
deriving DecidableEq

/-- `startAuthSession(sessionId)` (auth route lines 179-357), up to and
including the stream's `start` callback registering the fresh session:
on conflict the function returns the 409 before any subprocess is
spawned or any state touched.  Returns the HTTP-level result, the new
registry, and the pid of a spawned subprocess if any. -/
def startAuthSession (reg : Registry) (sessionId : Option String)
    (pid : Nat) (now : Nat) : StartResult × Registry × Option Nat :=
  match sessionId with
  | none => (.missingSessionId, reg, none)
  | some sid =>
    if registryHas reg sid then (.conflict, reg, none)
    else
      (.started,
        reg ++ [(sid, { process := pid, completed := false,
                        startTime := now })],
        some pid)

/-- The `cleanup` closure of a session (auth route lines 234-243): delete
the registry entry and kill that session's own subprocess.  Returns the
new registry and the killed pid, if the session was still present. -/
def cleanup (reg : Registry) (sid : String) : Registry × Option Nat :=
  (registryDelete reg sid, (registryGet reg sid).map (fun p => p.process))

/-- The subprocess `close` handler (auth route lines 293-310): exit code 0
sets the completion flag; any other exit code records an error message
and leaves the completion flag alone. -/
def exitCodeMsg (exitCode : Int) : String :=
  "Authentication failed with exit code " ++ toString exitCode

def onClose (p : AuthProcess) (exitCode : Int) : AuthProcess :=
  if exitCode = 0 then { p with completed := true }
  else { p with error := some (exitCodeMsg exitCode) }

/-- The subprocess `error` handler (auth route lines 313-318): records the
launch error message; the completion flag is untouched. -/
def onSpawnError (p : AuthProcess) (msg : String) : AuthProcess :=
  { p with error := some msg }

/-- The status-query response of `GET` without `action=start` (auth route
lines 139-157): `not_found` for an absent identifier, otherwise a
snapshot whose `status` field is `"completed"` when the completion flag
is set and `"in_progress"` otherwise, always carrying the stored code,
url and error fields. -/
inductive StatusResponse
  | notFound
  | snapshot (status : String) (code url error : Option String)
deriving DecidableEq

/-- Query a session's status by identifier. -/
def statusQuery (reg : Registry) (sid : String) : StatusResponse :=
  match registryGet reg sid with
  | none => .notFound
  | some p =>
    .snapshot (if p.completed then "completed" else "in_progress")
      p.code p.url p.error

/-- A concrete in-flight session used to instantiate the theorems. -/
def sampleSession : AuthProcess := { process := 42, startTime := 0 }

end Auth

/-! Theorems. -/

namespace Notif

theorem mapGet_append (m₁ m₂ : List (String × PRNotification)) (u : String) :
    mapGet (m₁ ++ m₂) u =
      match mapGet m₁ u with
      | some r => some r
      | none => mapGet m₂ u := by
  induction m₁ with
  | nil => simp [mapGet]
  | cons p rest ih =>
    by_cases h : p.1 = u <;> simp [mapGet, h, ih]

theorem mapGet_map_ne (m : List (String × PRNotification)) (k u : String)
    (v : PRNotification) (h : k ≠ u) :
    mapGet (m.map (fun p => if p.1 = k then (k, v) else p)) u =
      mapGet m u := by
  induction m with
  | nil => simp [mapGet]
  | cons p rest ih =>
    by_cases hp : p.1 = k
    · simp [mapGet, hp, h, ih]
    · simp [mapGet, hp, ih]

theorem mapGet_map_self (m : List (String × PRNotification)) (k : String)
    (v : PRNotification) (hany : m.any (fun p => p.1 = k) = true) :
    mapGet (m.map (fun p => if p.1 = k then (k, v) else p)) k =
      some v := by
  induction m with
  | nil => simp at hany
  | cons p rest ih =>
    by_cases hp : p.1 = k
    · simp [mapGet, hp]
    · have hrest : rest.any (fun p => p.1 = k) = true := by
        simp only [List.any_cons, Bool.or_eq_true, decide_eq_true_eq] at hany
        rcases hany with h | h
        · exact absurd h hp
        · exact h
      simp [mapGet, hp, ih hrest]

theorem mapGet_none_of_not_any (m : List (String × PRNotification))
    (k : String) (hany : m.any (fun p => p.1 = k) = false) :
    mapGet m k = none := by
  induction m with
  | nil => simp [mapGet]
  | cons p rest ih =>
    simp only [List.any_cons, Bool.or_eq_false_iff, decide_eq_false_iff_not]
      at hany
    simp [mapGet, hany.1, ih hany.2]

theorem mapGet_mapSet (m : List (String × PRNotification)) (k : String)
    (v : PRNotification) (u : String) :
    mapGet (mapSet m k v) u = if k = u then some v else mapGet m u := by
  unfold mapSet
  by_cases hany : m.any (fun p => p.1 = k) = true
  · by_cases hku : k = u
    · subst hku
      simp [hany, mapGet_map_self m k v hany]
    · simp [hany, hku, mapGet_map_ne m k u v hku]
  · have hany' : m.any (fun p => p.1 = k) = false :=
      Bool.eq_false_iff.mpr hany
    by_cases hku : k = u
    · subst hku
      simp [hany', mapGet_append, mapGet_none_of_not_any m k hany', mapGet]
    · simp [hany', mapGet_append, hku, mapGet]
      cases mapGet m u <;> simp [hku]

theorem mapGet_foldl_set (l : List PRNotification)
    (m : List (String × PRNotification)) (u : String) :
    mapGet (l.foldl (fun m pr => mapSet m pr.url pr) m) u =
      match lastWithUrl l u with
      | some r => some r
      | none => mapGet m u := by
  induction l generalizing m with
  | nil => simp [lastWithUrl]
  | cons pr rest ih =>
    simp only [List.foldl_cons, ih, lastWithUrl]
    cases hrest : lastWithUrl rest u with
    | some r => simp
    | none =>
      by_cases hu : pr.url = u <;> simp [mapGet_mapSet, hu]

theorem lastWithUrl_append (l₁ l₂ : List PRNotification) (u : String) :
    lastWithUrl (l₁ ++ l₂) u =
      match lastWithUrl l₂ u with
      | some r => some r
      | none => lastWithUrl l₁ u := by
  induction l₁ with
  | nil =>
    cases h : lastWithUrl l₂ u <;> simp [lastWithUrl, h]
  | cons pr rest ih =>
    have hstep : lastWithUrl ((pr :: rest) ++ l₂) u =
        match lastWithUrl (rest ++ l₂) u with
        | some r => some r
        | none => if pr.url = u then some pr else none := rfl
    rw [hstep, ih]
    cases h : lastWithUrl l₂ u with
    | some r => simp
    | none => cases hr : lastWithUrl rest u <;> simp [lastWithUrl, hr]

/-- C1 counterexample: one pull request discovered both through the
notification feed and through the `author` search, with the same
canonical identity URL.  The record placed in the final served list is
the search-derived one, not the notification-derived one: the current
merge loop calls `allPRs.set(pr.url, pr)` for the search lists without
the `!allPRs.has(...)` guard, so search-derived records overwrite
notification-derived records. -/
theorem merge_priority_counterexample :
    mapGet (mergePRs [notifRecord] [searchRecord] [] [] [])
        notifRecord.url = some searchRecord
    ∧ searchRecord ≠ notifRecord
    ∧ mergedNotifications [notifRecord] [searchRecord] [] [] []
        = [searchRecord] := by
  refine ⟨by decide, by decide, by decide⟩

/-- C1 (amended): in the aggregation merge the record placed in the final
served list for a canonical URL is the LAST record carrying that URL in
the fixed merge order (notification-derived list first, then the
authored, review-requested, reviewed and commented search lists) —
search-derived records overwrite notification-derived records for keys
already present, rather than being added only for absent keys.  The rule
depends only on the fixed source-class order, not on the order in which
the category queries completed. -/
theorem merge_last_writer_wins (notificationPRs authoredPRs
    reviewRequestedPRs reviewedPRs commentedPRs : List PRNotification)
    (u : String) :
    mapGet (mergePRs notificationPRs authoredPRs reviewRequestedPRs
        reviewedPRs commentedPRs) u =
      lastWithUrl (notificationPRs ++ (authoredPRs ++ reviewRequestedPRs
        ++ reviewedPRs ++ commentedPRs)) u := by
  unfold mergePRs
  rw [mapGet_foldl_set, mapGet_foldl_set,
    lastWithUrl_append notificationPRs (authoredPRs ++ reviewRequestedPRs
      ++ reviewedPRs ++ commentedPRs) u]
  cases hs : lastWithUrl (authoredPRs ++ reviewRequestedPRs ++ reviewedPRs
      ++ commentedPRs) u with
  | some r => simp
  | none =>
    cases hn : lastWithUrl notificationPRs u <;> simp [mapGet]

theorem processArrivals_fetching (times : List Nat) (s : AggState)
    (hf : s.isFetching = true)
    (hfr : ∀ u ∈ times, cacheFresh s u = false)
    (hb : ∀ u ∈ times, backoffActive s u = false) :
    processArrivals s times =
      ({ s with pendingRequests := s.pendingRequests + times.length },
        List.replicate times.length Phase1.waiter) := by
  induction times generalizing s with
  | nil => simp [processArrivals]
  | cons t rest ih =>
    have hfr_t : cacheFresh s t = false := hfr t (by simp)
    have hb_t : backoffActive s t = false := hb t (by simp)
    have hstep : getPhase1 s t =
        (.waiter, { s with pendingRequests := s.pendingRequests + 1 }) := by
      simp [getPhase1, hfr_t, hb_t, hf]
    have hfr' : ∀ u ∈ rest,
        cacheFresh { s with pendingRequests := s.pendingRequests + 1 } u
          = false := by
      intro u hu
      simpa [cacheFresh] using hfr u (by simp [hu])
    have hb' : ∀ u ∈ rest,
        backoffActive { s with pendingRequests := s.pendingRequests + 1 } u
          = false := by
      intro u hu
      simpa [backoffActive] using hb u (by simp [hu])
    have harith : s.pendingRequests + 1 + rest.length =
        s.pendingRequests + (rest.length + 1) := by omega
    simp only [processArrivals, hstep,
      ih { s with pendingRequests := s.pendingRequests + 1 } hf hfr' hb',
      List.length_cons, List.replicate_succ, Prod.mk.injEq, harith]

/-- C2: when K concurrent fetch calls arrive (at the given times, in
arrival order) while the cache is stale, no backoff is active, no fetch
is in flight and the waiter queue is empty, the first caller becomes the
fetch owner and is the only continuation that issues external gh calls;
every later caller is registered as a coalesced waiter.  Whatever the
owner's outcome — success or a thrown error — the completion segment
hands every one of the K-1 waiters the owner's own response object and
clears the queue, and the `finally` step resets the in-flight flag on
both paths, so no waiter is left unresolved. -/
theorem coalescing_single_owner (s0 : AggState) (t : Nat) (rest : List Nat)
    (s1 : AggState) (res : List Phase1)
    (hq : s0.pendingRequests = 0) (hf : s0.isFetching = false)
    (hfr : ∀ u ∈ t :: rest, cacheFresh s0 u = false)
    (hb : ∀ u ∈ t :: rest, backoffActive s0 u = false)
    (h : processArrivals s0 (t :: rest) = (s1, res)) :
    res = Phase1.owner :: List.replicate rest.length Phase1.waiter
    ∧ res.countP (fun p => issuesExternalCalls p) = 1
    ∧ s1.isFetching = true
    ∧ s1.pendingRequests = rest.length
    ∧ ∀ outcome tEnd s2 resp wresps,
        ownerFinish s1 outcome tEnd = (s2, resp, wresps) →
        wresps = List.replicate rest.length resp
        ∧ (∀ r ∈ wresps, r = resp)
        ∧ s2.isFetching = false
        ∧ s2.pendingRequests = 0 := by
  have hfr_t : cacheFresh s0 t = false := hfr t (by simp)
  have hb_t : backoffActive s0 t = false := hb t (by simp)
  have hstep : getPhase1 s0 t = (.owner, { s0 with isFetching := true }) := by
    simp [getPhase1, hfr_t, hb_t, hf]
  have hfr' : ∀ u ∈ rest,
      cacheFresh { s0 with isFetching := true } u = false := by
    intro u hu
    simpa [cacheFresh] using hfr u (by simp [hu])
  have hb' : ∀ u ∈ rest,
      backoffActive { s0 with isFetching := true } u = false := by
    intro u hu
    simpa [backoffActive] using hb u (by simp [hu])
  have hrest := processArrivals_fetching rest { s0 with isFetching := true }
    rfl hfr' hb'
  have hall : processArrivals s0 (t :: rest) =
      ({ s0 with
          isFetching := true
          pendingRequests := s0.pendingRequests + rest.length },
        Phase1.owner :: List.replicate rest.length Phase1.waiter) := by
    simp only [processArrivals, hstep, hrest]
  rw [hall] at h
  rw [Prod.mk.injEq] at h
  obtain ⟨hs1, hres⟩ := h
  have hwait_count : ∀ n : Nat,
      (List.replicate n Phase1.waiter).countP
        (fun p => issuesExternalCalls p) = 0 := by
    intro n
    induction n with
    | zero => simp
    | succ m ihm => simp [List.replicate, List.countP_cons, ihm,
        issuesExternalCalls]
  have hpend : s1.pendingRequests = rest.length := by
    rw [← hs1]; simp [hq]
  refine ⟨hres.symm, ?_, ?_, hpend, ?_⟩
  · rw [← hres]
    simp [List.countP_cons, hwait_count, issuesExternalCalls]
  · rw [← hs1]
  · intro outcome tEnd s2 resp wresps hfin
    cases outcome with
    | success l =>
      simp only [ownerFinish] at hfin
      rw [Prod.mk.injEq, Prod.mk.injEq] at hfin
      obtain ⟨hs2, hrsp, hwl⟩ := hfin
      refine ⟨?_, ?_, ?_, ?_⟩
      · rw [← hwl, hrsp, hpend]
      · intro r hr
        rw [← hwl] at hr
        rw [← hrsp]
        exact List.eq_of_mem_replicate hr
      · rw [← hs2]
      · rw [← hs2]
    | failure msg =>
      simp only [ownerFinish] at hfin
      rw [Prod.mk.injEq, Prod.mk.injEq] at hfin
      obtain ⟨hs2, hrsp, hwl⟩ := hfin
      refine ⟨?_, ?_, ?_, ?_⟩
      · rw [← hwl, hrsp, hpend]
      · intro r hr
        rw [← hwl] at hr
        rw [← hrsp]
        exact List.eq_of_mem_replicate hr
      · rw [← hs2]
      · rw [← hs2]

/-- C2 witness: three simultaneous callers on the pristine module state;
the first becomes the owner and the other two wait. -/
theorem coalescing_single_owner_witness :
    (processArrivals initialAggState [0, 0, 0]).2 =
      Phase1.owner :: List.replicate 2 Phase1.waiter :=
  (coalescing_single_owner initialAggState 0 [0, 0]
    (processArrivals initialAggState [0, 0, 0]).1
    (processArrivals initialAggState [0, 0, 0]).2
    rfl rfl (by decide) (by decide) rfl).1

/-- C3: when the owner's cycle started at `t0` with no backoff active (a
precondition of entering the fetch at all) and succeeds at `t1`, the
cache entry is replaced in one step with the full new snapshot (list,
derived total, capture timestamp), no backoff is active at `t1` or any
later time, and every coalesced waiter is handed the new view while the
queue and the in-flight flag are cleared. -/
theorem success_replaces_cache_and_releases (s : AggState)
    (l : List PRNotification) (t0 t1 t' : Nat) (s2 : AggState)
    (resp : GetResponse) (wresps : List GetResponse)
    (hb : backoffActive s t0 = false) (h01 : t0 ≤ t1) (h1' : t1 ≤ t')
    (h : ownerFinish s (.success l) t1 = (s2, resp, wresps)) :
    s2.cachedNotifications = l
    ∧ s2.cachedTotal = l.length
    ∧ s2.cachedTimestamp = t1
    ∧ s2.hasCache = true
    ∧ backoffActive s2 t' = false
    ∧ resp = GetResponse.successJson l l.length
    ∧ wresps = List.replicate s.pendingRequests resp
    ∧ s2.pendingRequests = 0
    ∧ s2.isFetching = false := by
  simp only [ownerFinish] at h
  rw [Prod.mk.injEq, Prod.mk.injEq] at h
  obtain ⟨hs2, hrsp, hwl⟩ := h
  have hlet : s2.lastErrorTime = s.lastErrorTime := by rw [← hs2]
  refine ⟨by rw [← hs2], by rw [← hs2], by rw [← hs2], by rw [← hs2],
    ?_, hrsp.symm, by rw [← hwl, hrsp], by rw [← hs2], by rw [← hs2]⟩
  simp only [backoffActive, hlet] at hb ⊢
  simp only [Bool.and_eq_false_iff] at hb ⊢
  rcases hb with hb | hb
  · exact Or.inl hb
  · right
    simp only [decide_eq_false_iff_not] at hb ⊢
    omega

/-- C3 witness: a successful cycle on the pristine state at time 5,
observed at time 7. -/
theorem success_replaces_cache_witness :
    ((ownerFinish initialAggState (.success [notifRecord]) 5).1.cachedNotifications = [notifRecord])
    ∧ backoffActive (ownerFinish initialAggState
        (.success [notifRecord]) 5).1 7 = false :=
  have h := success_replaces_cache_and_releases initialAggState
    [notifRecord] 3 5 7
    (ownerFinish initialAggState (.success [notifRecord]) 5).1
    (ownerFinish initialAggState (.success [notifRecord]) 5).2.1
    (ownerFinish initialAggState (.success [notifRecord]) 5).2.2
    (by decide) (by decide) (by decide) rfl
  ⟨h.1, h.2.2.2.2.1⟩

/-- C4: after a failed cycle the backoff guard is armed (the error
timestamp is set to the completion time) exactly when the thrown error's
message contains one of the two rate-limit signatures, "rate limit
exceeded" or "HTTP 403"; any other failure — an authentication failure
in particular — leaves the backoff timestamp untouched, and a successful
cycle never arms it. -/
theorem backoff_armed_iff_rate_limit (s : AggState) (msg : String)
    (l : List PRNotification) (now : Nat)
    (hne : s.lastErrorTime ≠ now) :
    ((ownerFinish s (.failure msg) now).1.lastErrorTime = now ↔
      (strIncludes msg "rate limit exceeded" = true
        ∨ strIncludes msg "HTTP 403" = true))
    ∧ (isRateLimitError msg = false →
        (ownerFinish s (.failure msg) now).1.lastErrorTime
          = s.lastErrorTime)
    ∧ (ownerFinish s (.success l) now).1.lastErrorTime
        = s.lastErrorTime := by
  refine ⟨?_, ?_, rfl⟩
  · simp only [ownerFinish]
    cases hrl : isRateLimitError msg with
    | true =>
      simp only [isRateLimitError, Bool.or_eq_true] at hrl
      simp [hrl]
    | false =>
      have hno : ¬(strIncludes msg "rate limit exceeded" = true
          ∨ strIncludes msg "HTTP 403" = true) := by
        simp only [isRateLimitError, Bool.or_eq_false_iff] at hrl
        simp [hrl.1, hrl.2]
      simp [hrl, hne, hno]
  · intro hrl
    simp [ownerFinish, hrl]

/-- C4 witness: an authentication failure message does not arm the guard;
a rate-limit message does. -/
theorem backoff_armed_iff_rate_limit_witness :
    ((ownerFinish initialAggState
        (.failure "gh: To get started with GitHub CLI, please run: gh auth login") 9).1.lastErrorTime = 9 ↔
      (strIncludes "gh: To get started with GitHub CLI, please run: gh auth login"
          "rate limit exceeded" = true
        ∨ strIncludes "gh: To get started with GitHub CLI, please run: gh auth login"
            "HTTP 403" = true)) :=
  (backoff_armed_iff_rate_limit initialAggState
    "gh: To get started with GitHub CLI, please run: gh auth login"
    [] 9 (by decide)).1

/-- C5: while the guard is armed — `lastErrorTime = T` nonzero and the
current time within `ERROR_BACKOFF_MS` of `T` — any fetch that misses
the cache responds immediately with the 429 backoff payload carrying the
remaining whole seconds, leaves the state untouched, and issues no
external calls; once `ERROR_BACKOFF_MS` has elapsed the same entry check
lets the caller become the fetch owner and proceed normally. -/
theorem backoff_suppression (s : AggState) (t T : Nat)
    (hT : s.lastErrorTime = T) (hT0 : T ≠ 0) (hle : T ≤ t)
    (hfresh : cacheFresh s t = false) :
    (t - T < ERROR_BACKOFF_MS →
      getPhase1 s t =
        (Phase1.respond (GetResponse.backoffJson
          ((ERROR_BACKOFF_MS - (t - T)) / 1000)), s)
      ∧ issuesExternalCalls (getPhase1 s t).1 = false)
    ∧ (ERROR_BACKOFF_MS ≤ t - T → s.isFetching = false →
        (getPhase1 s t).1 = Phase1.owner) := by
  constructor
  · intro hin
    have hact : backoffActive s t = true := by
      simp [backoffActive, hT, hT0, hin]
    have hout : getPhase1 s t =
        (Phase1.respond (GetResponse.backoffJson
          ((ERROR_BACKOFF_MS - (t - T)) / 1000)), s) := by
      simp [getPhase1, hfresh, hact, backoffRemainingSecs, hT]
    exact ⟨hout, by rw [hout]; rfl⟩
  · intro hafter hflag
    have hact : backoffActive s t = false := by
      simp only [backoffActive, hT]
      simp [Nat.not_lt.mpr hafter]
    simp [getPhase1, hfresh, hact, hflag]

/-- C5 witness: guard armed at T = 1000, fetch at t = 2000 responds with
the backoff payload (299 seconds remaining) and no external calls. -/
theorem backoff_suppression_witness :
    getPhase1 { initialAggState with lastErrorTime := 1000 } 2000 =
      (Phase1.respond (GetResponse.backoffJson 299),
        { initialAggState with lastErrorTime := 1000 }) :=
  have h := (backoff_suppression
    { initialAggState with lastErrorTime := 1000 } 2000 1000
    rfl (by decide) (by decide) (by decide)).1 (by decide)
  h.1

/-- C8: after a successful cycle at `t1`, a fetch at `t1 + e` with
`e < CACHE_TTL_MS` is answered from the cache — the response carries the
cached list, is tagged as served from cache, the state is untouched and
no external calls are issued; a fetch strictly later than
`t1 + CACHE_TTL_MS` (with no error recorded) becomes the owner of a new
aggregation cycle. -/
theorem cache_freshness (s : AggState) (l : List PRNotification)
    (t1 e t' : Nat) (s2 : AggState) (resp : GetResponse)
    (wresps : List GetResponse)
    (hle : s.lastErrorTime = 0) (he : e < CACHE_TTL_MS)
    (ht' : t1 + CACHE_TTL_MS < t')
    (h : ownerFinish s (.success l) t1 = (s2, resp, wresps)) :
    getPhase1 s2 (t1 + e) =
      (Phase1.respond (GetResponse.cachedJson l l.length), s2)
    ∧ fromCacheTag (GetResponse.cachedJson l l.length) = true
    ∧ issuesExternalCalls (getPhase1 s2 (t1 + e)).1 = false
    ∧ (getPhase1 s2 t').1 = Phase1.owner := by
  simp only [ownerFinish] at h
  rw [Prod.mk.injEq, Prod.mk.injEq] at h
  obtain ⟨hs2, hrsp, hwl⟩ := h
  have hfields : s2.cachedNotifications = l ∧ s2.cachedTotal = l.length
      ∧ s2.cachedTimestamp = t1 ∧ s2.hasCache = true
      ∧ s2.lastErrorTime = s.lastErrorTime ∧ s2.isFetching = false := by
    rw [← hs2]
    exact ⟨rfl, rfl, rfl, rfl, rfl, rfl⟩
  obtain ⟨hcn, hct, hts, hhc, hlet, hif⟩ := hfields
  have hfresh : cacheFresh s2 (t1 + e) = true := by
    simp [cacheFresh, hhc, hts]
    omega
  have hcached : getPhase1 s2 (t1 + e) =
      (Phase1.respond (GetResponse.cachedJson l l.length), s2) := by
    simp [getPhase1, hfresh, hcn, hct]
  refine ⟨hcached, rfl, by rw [hcached]; rfl, ?_⟩
  have hstale : cacheFresh s2 t' = false := by
    simp [cacheFresh, hhc, hts]
    omega
  have hback : backoffActive s2 t' = false := by
    simp [backoffActive, hlet, hle]
  simp [getPhase1, hstale, hback, hif]

/-- C8 witness: success at t1 = 10, cache hit at t1 + 59999, new cycle at
t1 + 60001. -/
theorem cache_freshness_witness :
    getPhase1 (ownerFinish initialAggState (.success [notifRecord]) 10).1
        (10 + 59999) =
      (Phase1.respond (GetResponse.cachedJson [notifRecord] 1),
        (ownerFinish initialAggState (.success [notifRecord]) 10).1) :=
  have h := cache_freshness initialAggState [notifRecord] 10 59999 60011
    (ownerFinish initialAggState (.success [notifRecord]) 10).1
    (ownerFinish initialAggState (.success [notifRecord]) 10).2.1
    (ownerFinish initialAggState (.success [notifRecord]) 10).2.2
    rfl (by decide) (by decide) rfl
  h.1

/-- C6 counterexample: with the `author` category rejected by the
upstream rate limiter and every other query succeeding, the cycle does
NOT surface a rate-limit classified error — `searchPRsGraphQL` absorbs
the failure into an empty list, the cycle succeeds with the remaining
categories' data, the backoff timestamp stays unarmed, and an immediate
follow-up fetch is served from the fresh cache rather than failing fast
with the backoff classification. -/
theorem rate_limited_category_counterexample :
    (getPhase1 initialAggState 0).1 = Phase1.owner
    ∧ rateLimitedCycle = FetchOutcome.success [notifRecord]
    ∧ rateLimitedRun.2.1 = GetResponse.successJson [notifRecord] 1
    ∧ isErrorResponse rateLimitedRun.2.1 = false
    ∧ rateLimitedRun.1.lastErrorTime = 0
    ∧ getPhase1 rateLimitedRun.1 101 =
        (Phase1.respond (GetResponse.cachedJson [notifRecord] 1),
          rateLimitedRun.1) := by
  refine ⟨by decide, by decide, by decide, by decide, by decide, by decide⟩

/-- C6 (amended): a whole-category query failure — rate-limited or not —
is absorbed inside that category's function and contributes zero records
rather than aborting the merge, and the cycle then completes
successfully with the remaining categories' data: the caller receives
the merged success view, not a rate-limit classified error, and a
successful completion leaves the backoff timestamp untouched.  Only a
failure to resolve the acting user's identity is fatal for the whole
cycle, failing it with that error's message. -/
theorem category_failure_absorbed (u e msg : String) (s : AggState)
    (now : Nat) (l : List PRNotification)
    (no ao ro vo co : Except String (List PRNotification)) :
    runFetchCycle (.ok u) no ao ro vo co =
      FetchOutcome.success (mergedNotifications
        (getNotificationPRs no) (searchPRsGraphQL ao)
        (searchPRsGraphQL ro) (searchPRsGraphQL vo)
        (searchPRsGraphQL co))
    ∧ searchPRsGraphQL (.error e) = []
    ∧ getNotificationPRs (.error e) = []
    ∧ (ownerFinish s (.success l) now).1.lastErrorTime = s.lastErrorTime
    ∧ runFetchCycle (.error msg) no ao ro vo co =
        FetchOutcome.failure msg :=
  ⟨rfl, rfl, rfl, rfl, rfl⟩

theorem prune_drop (now : Nat) (l : List Nat) :
    ∃ j, pruneGhCallWindow now l = l.drop j ∧ j ≤ l.length
      ∧ ∀ e ∈ l.take j, e + RATE_LIMIT_WINDOW_MS ≤ now := by
  induction l with
  | nil => exact ⟨0, rfl, by simp, by simp⟩
  | cons t rest ih =>
    by_cases h : RATE_LIMIT_WINDOW_MS ≤ now - t
    · obtain ⟨j, hj1, hj2, hj3⟩ := ih
      refine ⟨j + 1, ?_, by simpa using hj2, ?_⟩
      · simpa [pruneGhCallWindow, h] using hj1
      · intro e he
        rw [List.take_succ_cons] at he
        rcases List.mem_cons.mp he with he | he
        · subst he
          have hW : 0 < RATE_LIMIT_WINDOW_MS := by decide
          omega
        · exact hj3 e he
    · exact ⟨0, by simp [pruneGhCallWindow, h], by simp, by simp⟩

theorem runAdmissions_span_aux (attempts : List Nat) :
    ∀ (dropped ts : List Nat) (tcur : Nat),
      List.Pairwise (· ≤ ·) (tcur :: attempts) →
      (∀ e ∈ dropped, e + RATE_LIMIT_WINDOW_MS ≤ tcur) →
      spansWindow (dropped ++ ts) →
      spansWindow ((dropped ++ ts) ++ runAdmissions ts attempts) := by
  induction attempts with
  | nil =>
    intro dropped ts tcur _ _ hsp
    simpa [runAdmissions] using hsp
  | cons t rest ih =>
    intro dropped ts tcur hpw hdrop hsp
    obtain ⟨j, hj1, hj2, hj3⟩ := prune_drop t ts
    have hpc := List.pairwise_cons.mp hpw
    have htcur_t : tcur ≤ t := hpc.1 t (by simp)
    have hpw' : List.Pairwise (· ≤ ·) (t :: rest) := hpc.2
    have hBC : ts.take j ++ pruneGhCallWindow t ts = ts := by
      rw [hj1]
      exact List.take_append_drop j ts
    have hdecomp : (dropped ++ ts.take j) ++ pruneGhCallWindow t ts
        = dropped ++ ts := by
      rw [List.append_assoc, hBC]
    have hdrop' : ∀ e ∈ dropped ++ ts.take j,
        e + RATE_LIMIT_WINDOW_MS ≤ t := by
      intro e he
      rcases List.mem_append.mp he with h1 | h1
      · exact le_trans (hdrop e h1) htcur_t
      · exact hj3 e h1
    by_cases hlen :
        (pruneGhCallWindow t ts).length < MAX_GH_CALLS_PER_WINDOW
    · have hrun : runAdmissions ts (t :: rest) =
          t :: runAdmissions (pruneGhCallWindow t ts ++ [t]) rest := by
        simp [runAdmissions, tryAdmit, hlen]
      have hlens : (dropped ++ ts.take j).length
            + (pruneGhCallWindow t ts).length = (dropped ++ ts).length := by
        rw [← hdecomp]
        simp only [List.length_append]
      have hspt : spansWindow ((dropped ++ ts) ++ [t]) := by
        intro i hi
        rw [List.length_append, List.length_singleton] at hi
        by_cases hcase : i + MAX_GH_CALLS_PER_WINDOW < (dropped ++ ts).length
        · have hi' : i < (dropped ++ ts).length := by omega
          rw [List.getD_append _ _ _ _ hi', List.getD_append _ _ _ _ hcase]
          exact hsp i hcase
        · have heq : i + MAX_GH_CALLS_PER_WINDOW = (dropped ++ ts).length :=
            by omega
          have hMAX : 0 < MAX_GH_CALLS_PER_WINDOW := by decide
          have hi' : i < (dropped ++ ts).length := by omega
          have hidrop : i < (dropped ++ ts.take j).length := by omega
          rw [List.getD_append _ _ _ _ hi', heq,
            List.getD_append_right _ _ _ _ (le_refl _), Nat.sub_self]
          have hmem : (dropped ++ ts).getD i 0 ∈ dropped ++ ts.take j := by
            rw [← hdecomp, List.getD_append _ _ _ _ hidrop,
              List.getD_eq_getElem _ _ hidrop]
            exact List.getElem_mem hidrop
          simpa using hdrop' _ hmem
      have hspt' : spansWindow ((dropped ++ ts.take j)
          ++ (pruneGhCallWindow t ts ++ [t])) := by
        rw [← List.append_assoc, hdecomp]
        exact hspt
      have hres := ih (dropped ++ ts.take j)
        (pruneGhCallWindow t ts ++ [t]) t hpw' hdrop' hspt'
      rw [hrun]
      have hA : (dropped ++ ts) ++ (t :: runAdmissions
            (pruneGhCallWindow t ts ++ [t]) rest)
          = ((dropped ++ ts.take j) ++ (pruneGhCallWindow t ts ++ [t]))
            ++ runAdmissions (pruneGhCallWindow t ts ++ [t]) rest := by
        rw [← hdecomp]
        simp [List.append_assoc]
      rw [hA]
      exact hres
    · have hrun : runAdmissions ts (t :: rest) =
          runAdmissions (pruneGhCallWindow t ts) rest := by
        simp [runAdmissions, tryAdmit, hlen]
      have hsp2 : spansWindow ((dropped ++ ts.take j)
          ++ pruneGhCallWindow t ts) := by
        rw [hdecomp]
        exact hsp
      have hres := ih (dropped ++ ts.take j) (pruneGhCallWindow t ts) t
        hpw' hdrop' hsp2
      rw [hrun, ← hdecomp]
      exact hres

/-- C7: the gh-call throttle keeps its ceiling — in any trace of
admission attempts at nondecreasing times starting from an empty log, no
`MAX_GH_CALLS_PER_WINDOW + 1` admitted calls have recorded start
timestamps spanning less than `RATE_LIMIT_WINDOW_MS`; each admission
prunes the expired timestamps first and, when fewer than the ceiling
remain, admits immediately with zero cumulative wait; otherwise every
sleep increment is bounded between `MIN_SLEEP_MS` and `SLEEP_STEP_MS`,
and whenever the retry loop eventually admits, the cumulative wait it
returns is exactly the wall-clock time spent in the loop. -/
theorem throttle_ceiling :
    (∀ attempts : List Nat, List.Pairwise (· ≤ ·) attempts →
      spansWindow (runAdmissions [] attempts))
    ∧ (∀ fuel ts now,
        (pruneGhCallWindow now ts).length < MAX_GH_CALLS_PER_WINDOW →
        waitForGhSlot fuel ts now =
          some (pruneGhCallWindow now ts ++ [now], 0, now))
    ∧ (∀ u, MIN_SLEEP_MS ≤ sleepForSlot u ∧ sleepForSlot u ≤ SLEEP_STEP_MS)
    ∧ (∀ fuel ts now waited r,
        waitForGhSlotAux fuel ts now waited = some r →
        r.2.1 - waited = r.2.2 - now ∧ waited ≤ r.2.1 ∧ now ≤ r.2.2) := by
  refine ⟨?_, ?_, ?_, ?_⟩
  · intro attempts hpw
    have h0 : List.Pairwise (· ≤ ·) (0 :: attempts) :=
      List.pairwise_cons.mpr ⟨fun a _ => Nat.zero_le a, hpw⟩
    have hvac : spansWindow (([] : List Nat) ++ []) := by
      intro i hi
      simp at hi
    have := runAdmissions_span_aux attempts [] [] 0 h0 (by simp) hvac
    simpa using this
  · intro fuel ts now h
    cases fuel with
    | zero => simp [waitForGhSlot, waitForGhSlotAux, h]
    | succ f => simp [waitForGhSlot, waitForGhSlotAux, h]
  · intro u
    exact ⟨le_max_left _ _, max_le (by decide) (min_le_left _ _)⟩
  · intro fuel
    induction fuel with
    | zero =>
      intro ts now waited r h
      simp only [waitForGhSlotAux] at h
      by_cases hc :
          (pruneGhCallWindow now ts).length < MAX_GH_CALLS_PER_WINDOW
      · rw [if_pos hc] at h
        obtain rfl := Option.some.inj h
        simp
      · rw [if_neg hc] at h
        exact absurd h (by simp)
    | succ f ihf =>
      intro ts now waited r h
      simp only [waitForGhSlotAux] at h
      by_cases hc :
          (pruneGhCallWindow now ts).length < MAX_GH_CALLS_PER_WINDOW
      · rw [if_pos hc] at h
        obtain rfl := Option.some.inj h
        simp
      · rw [if_neg hc] at h
        have := ihf _ _ _ _ h
        omega

/-- C7 witness: the fast path — an empty window admits immediately with
zero wait. -/
theorem throttle_ceiling_witness :
    waitForGhSlot 0 [] 7 = some ([7], 0, 7) :=
  throttle_ceiling.2.1 0 [] 7 (by decide)

end Notif

namespace Auth

theorem registryHas_of_get (reg : Registry) (sid : String)
    (p : AuthProcess) (h : registryGet reg sid = some p) :
    registryHas reg sid = true := by
  induction reg with
  | nil => simp [registryGet] at h
  | cons q rest ih =>
    by_cases hq : q.1 = sid
    · simp only [registryHas, List.any_cons, Bool.or_eq_true,
        decide_eq_true_eq]
      exact Or.inl hq
    · simp only [registryGet, if_neg hq] at h
      simp only [registryHas, List.any_cons, Bool.or_eq_true,
        decide_eq_true_eq]
      exact Or.inr (ih h)

theorem registryHas_delete (reg : Registry) (sid : String) :
    registryHas (registryDelete reg sid) sid = false := by
  induction reg with
  | nil => rfl
  | cons q rest ih =>
    by_cases hq : q.1 = sid
    · have hstep : registryDelete (q :: rest) sid =
          registryDelete rest sid := by
        simp [registryDelete, List.filter_cons, hq]
      rw [hstep]
      exact ih
    · have hstep : registryDelete (q :: rest) sid =
          q :: registryDelete rest sid := by
        simp [registryDelete, List.filter_cons, hq]
      rw [hstep]
      simp only [registryHas, List.any_cons, Bool.or_eq_false_iff,
        decide_eq_false_iff_not]
      exact ⟨hq, ih⟩

/-- C9: starting an authentication session whose identifier is already
present in the registry is rejected with the 409 conflict before any
subprocess is spawned: the registry is returned unchanged, the existing
session's entry (and so its subprocess handle) is untouched, and nothing
is killed.  After that session is cleaned up — which removes exactly its
registry entry and kills its own subprocess — the same identifier can be
reused: a new start succeeds and registers a fresh session under it. -/
theorem session_conflict (reg : Registry) (S : String) (p : AuthProcess)
    (pid now pid2 now2 : Nat) (hmem : registryGet reg S = some p) :
    (startAuthSession reg (some S) pid now).1 = StartResult.conflict
    ∧ (startAuthSession reg (some S) pid now).2.1 = reg
    ∧ (startAuthSession reg (some S) pid now).2.2 = none
    ∧ registryGet (startAuthSession reg (some S) pid now).2.1 S = some p
    ∧ (cleanup reg S).2 = some p.process
    ∧ (startAuthSession (cleanup reg S).1 (some S) pid2 now2).1 =
        StartResult.started
    ∧ registryHas (startAuthSession (cleanup reg S).1 (some S) pid2
        now2).2.1 S = true := by
  have hhas : registryHas reg S = true := registryHas_of_get reg S p hmem
  have hconf : startAuthSession reg (some S) pid now =
      (StartResult.conflict, reg, none) := by
    simp [startAuthSession, hhas]
  have hdel : registryHas (registryDelete reg S) S = false :=
    registryHas_delete reg S
  have hstart : startAuthSession (cleanup reg S).1 (some S) pid2 now2 =
      (StartResult.started,
        registryDelete reg S ++
          [(S, { process := pid2, completed := false, startTime := now2 })],
        some pid2) := by
    simp [startAuthSession, cleanup, hdel]
  refine ⟨by rw [hconf], by rw [hconf], by rw [hconf],
    by rw [hconf]; exact hmem, ?_, by rw [hstart], ?_⟩
  · simp [cleanup, hmem]
  · rw [hstart]
    simp [registryHas, List.any_append]

/-- C9 witness: a concrete registry holding one active session. -/
theorem session_conflict_witness :
    (startAuthSession [("sess-1", sampleSession)] (some "sess-1") 7 3).1 =
      StartResult.conflict :=
  (session_conflict [("sess-1", sampleSession)] "sess-1" sampleSession
    7 3 9 4 (by decide)).1

/-- C10: the status query has no distinct failed status.  A session whose
subprocess exited nonzero or errored carries an error message while its
completion flag is still false, and as long as it has not been cleaned
up the query answers "in_progress" with that error message attached; a
nonzero exit records the error and leaves the completion flag unchanged,
a launch error never touches the flag, the flag becomes true only
through an exit with code 0, and the query answers "completed" exactly
when the flag is set. -/
theorem status_no_failed_state :
    (∀ (reg : Registry) (sid : String) (p : AuthProcess) (e : String),
      registryGet reg sid = some p → p.completed = false →
      p.error = some e →
      statusQuery reg sid =
        StatusResponse.snapshot "in_progress" p.code p.url (some e))
    ∧ (∀ (p : AuthProcess) (c : Int), c ≠ 0 →
        (onClose p c).completed = p.completed
        ∧ (onClose p c).error = some (exitCodeMsg c))
    ∧ (∀ (p : AuthProcess) (c : Int), (onClose p c).completed = true →
        c = 0 ∨ p.completed = true)
    ∧ (∀ (p : AuthProcess) (msg : String),
        (onSpawnError p msg).completed = p.completed)
    ∧ (∀ (reg : Registry) (sid : String) (p : AuthProcess),
        registryGet reg sid = some p →
        (statusQuery reg sid =
            StatusResponse.snapshot "completed" p.code p.url p.error
          ↔ p.completed = true)) := by
  refine ⟨?_, ?_, ?_, ?_, ?_⟩
  · intro reg sid p e hget hcomp herr
    simp [statusQuery, hget, hcomp, herr]
  · intro p c hc
    simp [onClose, hc]
  · intro p c h
    by_cases hc : c = 0
    · exact Or.inl hc
    · right
      simpa [onClose, hc] using h
  · intro p msg
    simp [onSpawnError]
  · intro reg sid p hget
    cases hcomp : p.completed with
    | true => simp [statusQuery, hget, hcomp]
    | false =>
      simp [statusQuery, hget, hcomp]

/-- C10 witness: a session that failed with exit code 1 and has not been
cleaned up reports "in_progress" with the error message attached. -/
theorem status_no_failed_state_witness :
    statusQuery [("sess-1", onClose sampleSession 1)] "sess-1" =
      StatusResponse.snapshot "in_progress" none none
        (some (exitCodeMsg 1)) :=
  status_no_failed_state.1 [("sess-1", onClose sampleSession 1)] "sess-1"
    (onClose sampleSession 1) (exitCodeMsg 1) (by decide) (by decide)
    (by decide)

end Auth
